import Mathlib

/-
Verification of the craft-agents event-normalization and session layer.

The development shallowly embeds the TypeScript sources:
  * the thinking-level resolver (thinking-levels.ts),
  * the Codex credential-file reader (codex-auth.ts),
  * the session-title validators (title-generator.ts),
  * the CodexAgent class: extractors, tool-result normalization, MCP
    tool-name canonicalization, the streamed chat loop, the non-streamed
    fallback loop, and the model / thinking-level / ultrathink mutators.

Upstream SDK events are loosely typed JavaScript values; they are modelled
by the inductive type JVal below (objects, strings, integers, booleans and
null; JS undefined is modelled as an absent field, i.e. Option.none).
JavaScript library operations the source relies on (string split, includes,
replaceAll, trim, nullish coalescing, truthiness, String() coercion) are
given explicit executable models whose recursion is structural, so every
definition evaluates inside the kernel.

Two modelling restrictions, stated once here: fields that the source casts
with an unchecked "as string" and then uses as identifiers (tool names,
tool-use ids, parent ids, source hints) are read only when the field holds
a string, so the model covers event streams whose id-bearing fields are
strings; and JS Map iteration order, which the source never observes, is
not modelled (the parent map is an association list read through lookup).
-/

/-- A JavaScript value as the upstream SDK delivers it: an object, a string,
an integer, a boolean or null. JS undefined is represented by an absent
field (Option.none), never by a JVal. -/
inductive JVal where
  | null : JVal
  | bool : Bool → JVal
  | num : Int → JVal
  | str : String → JVal
  | obj : List (String × JVal) → JVal

/-- Property read on a JVal: objects look the key up, every other value has
no properties that the source reads. JS undefined is Option.none. -/
def getField (v : JVal) (k : String) : Option JVal :=
  match v with
  | .obj kvs => kvs.lookup k
  | _ => none

/-- Optional-chaining read, modelling the source's `o?.k`. -/
def optField (o : Option JVal) (k : String) : Option JVal :=
  match o with
  | some v => getField v k
  | none => none

/-- JS nullish coalescing `a ?? b`: b is taken when a is undefined (none)
or null. -/
def jsCoalesce (a b : Option JVal) : Option JVal :=
  match a with
  | some .null => b
  | some v => some v
  | none => b

/-- JS truthiness of a value: empty string, 0, false and null are falsy;
every object is truthy. -/
def jsTruthy : JVal → Bool
  | .null => false
  | .bool b => b
  | .num n => n != 0
  | .str s => s != ""
  | .obj _ => true

/-- JS truthiness of a possibly-undefined value (undefined is falsy). -/
def jsTruthyOpt (o : Option JVal) : Bool :=
  match o with
  | some v => jsTruthy v
  | none => false

/-- JS String() coercion, for the values of the model (the source never
stringifies arrays, so objects all print as JS prints a plain object). -/
def jsToString : JVal → String
  | .null => "null"
  | .bool b => if b then "true" else "false"
  | .num n => toString n
  | .str s => s
  | .obj _ => "[object Object]"

/-- Reads a possibly-undefined value as a string exactly when it is one,
modelling the source's typeof checks and its id-bearing string casts (see
the header note). -/
def asStr (o : Option JVal) : Option String :=
  match o with
  | some (.str s) => some s
  | _ => none

/-- Truthiness of a possibly-undefined string: present and non-empty. -/
def optStrTruthy (o : Option String) : Bool :=
  match o with
  | some s => s != ""
  | none => false

/-- Whether the pattern is an initial run of the list (character-wise). -/
def leadsWith : List Char → List Char → Bool
  | [], _ => true
  | _ :: _, [] => false
  | a :: as, b :: bs => a == b && leadsWith as bs

/-- Whether the pattern occurs anywhere in the list. -/
def containsSeq (pat : List Char) : List Char → Bool
  | [] => leadsWith pat []
  | b :: bs => leadsWith pat (b :: bs) || containsSeq pat bs

/-- JS `s.includes(sub)` for the non-empty patterns the source uses. -/
def jsIncludes (s sub : String) : Bool :=
  containsSeq sub.data s.data

/-- JS `s.startsWith(p)`. -/
def jsStartsWith (s p : String) : Bool :=
  leadsWith p.data s.data

/-- Worker for jsSplit: the fuel is an upper bound on the characters left,
so the recursion is structural and the kernel evaluates it. -/
def splitGo (sep : List Char) : Nat → List Char → List Char → List (List Char)
  | 0, acc, _ => [acc.reverse]
  | _ + 1, acc, [] => [acc.reverse]
  | fuel + 1, acc, c :: rest =>
    if leadsWith sep (c :: rest) && !sep.isEmpty then
      acc.reverse :: splitGo sep fuel [] (List.drop sep.length (c :: rest))
    else
      splitGo sep fuel (c :: acc) rest

/-- JS `s.split(sep)` for the non-empty separators the source uses. -/
def jsSplit (s sep : String) : List String :=
  (splitGo sep.data (s.data.length + 1) [] s.data).map List.asString

/-- Worker for jsReplaceAll, fueled like splitGo. -/
def replaceGo (pat rep : List Char) : Nat → List Char → List Char
  | 0, rest => rest
  | _ + 1, [] => []
  | fuel + 1, c :: rest =>
    if leadsWith pat (c :: rest) && !pat.isEmpty then
      rep ++ replaceGo pat rep fuel (List.drop pat.length (c :: rest))
    else
      c :: replaceGo pat rep fuel rest

/-- JS `s.replaceAll(pat, rep)` for the non-empty patterns the source uses. -/
def jsReplaceAll (s pat rep : String) : String :=
  (replaceGo pat.data rep.data (s.data.length + 1) s.data).asString

/-- ASCII lower-casing, covering the item-type discriminators the source
normalizes. -/
def jsToLower (s : String) : String :=
  (s.data.map (fun c => if 'A' ≤ c && c ≤ 'Z' then Char.ofNat (c.toNat + 32) else c)).asString

/-- The whitespace JS `trim` removes, restricted to the ASCII whitespace
that titles can contain. -/
def isJsWs (c : Char) : Bool :=
  c == ' ' || c == '\t' || c == '\n' || c == '\r'

/-- JS `s.trim()`. -/
def jsTrim (s : String) : String :=
  (((s.data.dropWhile isJsWs).reverse.dropWhile isJsWs).reverse).asString

/-
Thinking-level resolver (thinking-levels.ts).
-/

/-- The seven-value thinking-level enum of thinking-levels.ts. -/
inductive ThinkingLevel where
  | off | think | max | low | medium | high | xhigh
deriving DecidableEq

/-- The four reasoning-effort values the Codex provider accepts. -/
inductive CodexEffort where
  | low | medium | high | xhigh
deriving DecidableEq

/-- The source's mini test, `!!modelId && modelId.includes('codex-mini')`:
the id must be present, truthy and contain the marker. -/
def isMiniModel (modelId : Option String) : Bool :=
  match modelId with
  | some m => m != "" && jsIncludes m "codex-mini"
  | none => false

/-- normalizeThinkingLevelForCodex of thinking-levels.ts: pass-through for
the four native values, off to low, think to medium, else (max) to high;
then the mini collapse of low to medium and xhigh to high. -/
def normalizeThinkingLevelForCodex (level : ThinkingLevel) (modelId : Option String) :
    CodexEffort :=
  let isMini := isMiniModel modelId
  let normalized : CodexEffort :=
    match level with
    | .low => .low
    | .medium => .medium
    | .high => .high
    | .xhigh => .xhigh
    | .off => .low
    | .think => .medium
    | .max => .high
  if isMini then
    match normalized with
    | .low => .medium
    | .xhigh => .high
    | x => x
  else normalized

/-- The spec's own wording of normalizeForProviderB, written independently
of the source for the refinement comparison of claim C8: pass-through for
the four native values, off to low, think to medium, else to high, and for
a mini model the further collapse of low to medium and xhigh to high. -/
def specNormalizeForProviderB (level : ThinkingLevel) (isMini : Bool) : CodexEffort :=
  let base : CodexEffort :=
    match level with
    | .low => .low
    | .medium => .medium
    | .high => .high
    | .xhigh => .xhigh
    | .off => .low
    | .think => .medium
    | .max => .high
  if isMini then
    match base with
    | .low => .medium
    | .xhigh => .high
    | x => x
  else base

/-
Codex credential-file reader (codex-auth.ts).
-/

/-- The tokens object of the auth file. -/
structure CodexAuthTokens where
  id_token : Option String
  access_token : Option String
  refresh_token : Option String
  account_id : Option String
deriving DecidableEq

/-- The parsed shape of the auth file at the fixed path under the home
directory. -/
structure CodexAuthFile where
  OPENAI_API_KEY : Option String
  tokens : Option CodexAuthTokens
  last_refresh : Option String
deriving DecidableEq

/-- The state of the credential file on disk: absent, present but
unreadable, or present with raw contents. -/
inductive FsState where
  | missing
  | unreadable
  | content (raw : String)

/-- A runtime error of the embedded JavaScript: the reference error the
out-of-scope variable read raises, an I/O failure, or a JSON parse
failure. -/
inductive JsError where
  | referenceError
  | ioError
  | parseError
deriving DecidableEq

/-- The body of readCodexAuthFile before its catch: a missing file returns
null, a read failure raises, JSON.parse of the raw text either yields the
parsed object or raises. The parse function stands for JSON.parse, an
external library call. -/
def readCodexAuthFileBody (fs : FsState) (parse : String → Option CodexAuthFile) :
    Except JsError (Option CodexAuthFile) :=
  match fs with
  | .missing => .ok none
  | .unreadable => .error .ioError
  | .content raw =>
    match parse raw with
    | some f => .ok (some f)
    | none => .error .parseError

/-- readCodexAuthFile of codex-auth.ts: the body wrapped in the catch that
logs and returns null on any raised error. -/
def readCodexAuthFile (fs : FsState) (parse : String → Option CodexAuthFile) :
    Option CodexAuthFile :=
  match readCodexAuthFileBody fs parse with
  | .ok v => v
  | .error _ => none

/-
Session-title generation (title-generator.ts): the validation applied to
the model's output by each of the three entry points. The SDK call itself
is opaque I/O; its textual result is the parameter.
-/

/-- The tail of generateTitleWithCodex: trim the final response (empty
when absent) and keep it only when non-empty and shorter than 100
characters. -/
def generateTitleWithCodexResult (finalResponse : Option String) : Option String :=
  let trimmed := jsTrim (finalResponse.getD "")
  if trimmed != "" && decide (0 < trimmed.length) && decide (trimmed.length < 100) then
    some trimmed
  else none

/-- The accumulation of assistant text blocks into the title string,
mirroring the += loop of generateSessionTitle. -/
def titleFromBlocks (blocks : List String) : String :=
  blocks.foldl (fun acc b => acc ++ b) ""

/-- The tail of generateSessionTitle on the Claude path: accumulate the
text blocks, trim, and apply the same length gate. -/
def generateSessionTitleResult (blocks : List String) : Option String :=
  let trimmed := jsTrim (titleFromBlocks blocks)
  if trimmed != "" && decide (0 < trimmed.length) && decide (trimmed.length < 100) then
    some trimmed
  else none

/-- The tail of regenerateSessionTitle, textually the same gate as
generateSessionTitle (the source duplicates it). -/
def regenerateSessionTitleResult (blocks : List String) : Option String :=
  let trimmed := jsTrim (titleFromBlocks blocks)
  if trimmed != "" && decide (0 < trimmed.length) && decide (trimmed.length < 100) then
    some trimmed
  else none

/-
CodexAgent (codex-agent.ts): the normalized event vocabulary and the
synonym-probing extractors of the chat driver.
-/

/-- The normalized event union the chat driver yields to the UI. -/
inductive AgentEvent where
  | info (message : String)
  | text_delta (text : String)
  | text_complete (text : String)
  | tool_start (toolName toolUseId : String) (input : JVal)
      (intent displayName parentToolUseId : Option String)
  | tool_result (toolUseId result : String) (isError : Bool)
  | parent_update (toolUseId parentToolUseId : String)
  | complete

/-- A generic tool descriptor as extractToolInfo and the two item mappers
produce it: name, invocation id and the raw input value when present. -/
structure ToolInfo where
  toolName : String
  toolUseId : String
  input : Option JVal

/-- A normalized tool result: invocation id, result text (possibly
augmented with the stderr section) and the error flag. -/
structure ToolResult where
  toolUseId : String
  result : String
  isError : Bool

/-- extractEventType: `data.type ?? data.event ?? data.method`, kept only
when it is a string. -/
def extractEventType (e : JVal) : Option String :=
  match e with
  | .obj _ =>
    asStr (jsCoalesce (getField e "type") (jsCoalesce (getField e "event") (getField e "method")))
  | _ => none

/-- The shared `data.item ?? params?.item` read of the chat driver and the
extractors. -/
def eventItem (e : JVal) : Option JVal :=
  jsCoalesce (getField e "item") (optField (getField e "params") "item")

/-- extractTextDelta: the delta-text synonym chain, kept only when it is a
non-empty string. -/
def extractTextDelta (e : JVal) : Option String :=
  match e with
  | .obj _ =>
    let params := getField e "params"
    let delta := jsCoalesce (getField e "delta") (optField params "delta")
    let item := eventItem e
    let text :=
      jsCoalesce (optField delta "text")
        (jsCoalesce (optField params "text")
          (jsCoalesce (getField e "text")
            (jsCoalesce (getField e "output_text")
              (jsCoalesce (getField e "outputText")
                (jsCoalesce (optField item "text") (optField item "content"))))))
    match asStr text with
    | some s => if 0 < s.length then some s else none
    | none => none
  | _ => none

/-- extractTextComplete: the complete-text synonym chain (extractTextDelta
without the delta object), kept only when it is a non-empty string. -/
def extractTextComplete (e : JVal) : Option String :=
  match e with
  | .obj _ =>
    let params := getField e "params"
    let item := eventItem e
    let text :=
      jsCoalesce (optField params "text")
        (jsCoalesce (getField e "text")
          (jsCoalesce (getField e "output_text")
            (jsCoalesce (getField e "outputText")
              (jsCoalesce (optField item "text") (optField item "content")))))
    match asStr text with
    | some s => if 0 < s.length then some s else none
    | none => none
  | _ => none

/-- extractToolInfo: name, id and input through their synonym chains; valid
only when both the name and the id are present and truthy. -/
def extractToolInfo (e : JVal) : Option ToolInfo :=
  match e with
  | .obj _ =>
    let params := getField e "params"
    let item := eventItem e
    let toolName :=
      asStr (jsCoalesce (getField e "tool_name")
        (jsCoalesce (getField e "toolName")
          (jsCoalesce (optField (getField e "tool") "name")
            (jsCoalesce (optField item "name") (getField e "name")))))
    let toolUseId :=
      asStr (jsCoalesce (getField e "tool_call_id")
        (jsCoalesce (getField e "toolUseId")
          (jsCoalesce (getField e "id")
            (jsCoalesce (optField (getField e "tool") "id")
              (jsCoalesce (optField item "id") (optField params "itemId"))))))
    let input :=
      jsCoalesce (getField e "input")
        (jsCoalesce (getField e "arguments")
          (jsCoalesce (optField (getField e "tool") "input") (optField item "input")))
    match toolName, toolUseId with
    | some n, some i => if n == "" || i == "" then none else some ⟨n, i, input⟩
    | _, _ => none
  | _ => none

/-- extractParentToolUseId: the parent-id synonym chain, with the source's
final `parent || null` truthiness gate. -/
def extractParentToolUseId (e : JVal) : Option String :=
  match e with
  | .obj _ =>
    let params := getField e "params"
    let item := eventItem e
    let parent :=
      asStr (jsCoalesce (getField e "parent_tool_use_id")
        (jsCoalesce (getField e "parentToolUseId")
          (jsCoalesce (getField e "parent_id")
            (jsCoalesce (optField params "parent_item_id")
              (jsCoalesce (optField params "parentItemId")
                (jsCoalesce (optField item "parent_id") (optField item "parentId")))))))
    match parent with
    | some p => if p == "" then none else some p
    | none => none
  | _ => none

/-- extractIntentDisplayName: the intent and display-name chains, each kept
only when the coalesced value is a string. -/
def extractIntentDisplayName (input : Option JVal) (event : Option JVal) (item : Option JVal) :
    Option String × Option String :=
  let intent :=
    asStr (jsCoalesce (optField input "_intent")
      (jsCoalesce (optField event "intent")
        (jsCoalesce (optField item "intent") (optField event "tool_intent"))))
  let displayName :=
    asStr (jsCoalesce (optField input "_displayName")
      (jsCoalesce (optField event "displayName")
        (jsCoalesce (optField item "_displayName") (optField item "displayName"))))
  (intent, displayName)

/-- isItemEvent: the type string contains item followed by a dot, slash or
underscore. -/
def isItemEvent (type : String) : Bool :=
  jsIncludes type "item." || jsIncludes type "item/" || jsIncludes type "item_"

/-- getItemType: `item?.type ?? data.item_type ?? data.itemType`, kept only
when it is a string. -/
def getItemType (e : JVal) : Option String :=
  match e with
  | .obj _ =>
    asStr (jsCoalesce (optField (eventItem e) "type")
      (jsCoalesce (getField e "item_type") (getField e "itemType")))
  | _ => none

/-- The chat driver's normalization of the item type: strip underscores and
hyphens, lower-case. -/
def normalizedItemTypeOf (e : JVal) : Option String :=
  (getItemType e).map (fun t => jsToLower (jsReplaceAll (jsReplaceAll t "_" "") "-" ""))

/-- normalizeToolResult of codex-agent.ts. The isError expression mirrors
the source's JS parse: `===` binds tighter than `??`, so the chain is
is_error ?? isError ?? ((item?.status === 'failed') ?? item?.error ??
(typeof exitCode === 'number' && exitCode !== 0)); the third operand is a
boolean and never nullish, so the last two operands are unreachable (they
are kept here to mirror the source). -/
def normalizeToolResult (e : JVal) : Option ToolResult :=
  match e with
  | .obj _ =>
    let params := getField e "params"
    let item := eventItem e
    let stderr :=
      jsCoalesce (getField e "stderr")
        (jsCoalesce (optField params "stderr")
          (jsCoalesce (optField item "stderr") (optField item "error")))
    let exitCode :=
      jsCoalesce (getField e "exit_code")
        (jsCoalesce (getField e "exitCode")
          (jsCoalesce (optField params "exit_code")
            (jsCoalesce (optField params "exitCode")
              (jsCoalesce (optField item "exit_code") (optField item "exitCode")))))
    let result :=
      jsCoalesce (getField e "result")
        (jsCoalesce (getField e "output")
          (jsCoalesce (optField params "output")
            (jsCoalesce (optField params "delta")
              (jsCoalesce (optField item "output")
                (jsCoalesce (optField item "result") (optField item "aggregatedOutput"))))))
    let toolUseId :=
      asStr (jsCoalesce (getField e "tool_call_id")
        (jsCoalesce (getField e "toolUseId")
          (jsCoalesce (getField e "id")
            (jsCoalesce (optField item "id") (optField params "itemId")))))
    let statusFailed : JVal :=
      .bool (match optField item "status" with
             | some (.str s) => s == "failed"
             | _ => false)
    let exitNonzero : Bool :=
      match exitCode with
      | some (.num n) => n != 0
      | _ => false
    let isErrorVal :=
      jsCoalesce (getField e "is_error")
        (jsCoalesce (getField e "isError")
          (jsCoalesce (some statusFailed)
            (jsCoalesce (optField item "error") (some (.bool exitNonzero)))))
    let isError := jsTruthyOpt isErrorVal
    match toolUseId, result with
    | some tid, some r =>
      if tid == "" then none
      else
        let resultWithMeta :=
          if jsTruthyOpt stderr then
            jsToString r ++ "\n\n[stderr]\n" ++ jsToString (stderr.getD .null)
          else jsToString r
        some ⟨tid, resultWithMeta, isError⟩
    | _, _ => none
  | _ => none

/-- mapCommandItemToTool: a command-execution item becomes a synthetic bash
tool call; the command is the first of command, cmd, shell, input; a truthy
id is required. The input object carries the command key when the command
value is defined. -/
def mapCommandItemToTool (item : JVal) : Option ToolInfo :=
  let command :=
    jsCoalesce (getField item "command")
      (jsCoalesce (getField item "cmd")
        (jsCoalesce (getField item "shell") (getField item "input")))
  match asStr (getField item "id") with
  | some id =>
    if id == "" then none
    else some ⟨"bash", id,
      some (.obj (match command with
                  | some c => [("command", c)]
                  | none => []))⟩
  | none => none

/-- normalizeMcpToolName of codex-agent.ts: canonical names pass through;
dotted, colon and slash shapes are rewritten; else a truthy source hint is
prepended; else the name is unchanged. -/
def normalizeMcpToolName (toolName : String) (item : Option JVal) : String :=
  if jsStartsWith toolName "mcp__" then toolName
  else
    let sourceHint :=
      asStr (jsCoalesce (optField item "source")
        (jsCoalesce (optField item "provider")
          (jsCoalesce (optField item "mcp")
            (jsCoalesce (optField item "server") (optField item "client")))))
    match jsSplit toolName "." with
    | ["mcp", a, b] => "mcp__" ++ a ++ "__" ++ b
    | [a, b] => "mcp__" ++ a ++ "__" ++ b
    | _ =>
      match jsSplit toolName ":" with
      | [a, b] => "mcp__" ++ a ++ "__" ++ b
      | _ =>
        match jsSplit toolName "/" with
        | [a, b] => "mcp__" ++ a ++ "__" ++ b
        | _ =>
          match sourceHint with
          | some h => if h == "" then toolName else "mcp__" ++ h ++ "__" ++ toolName
          | none => toolName

/-- mapMcpItemToTool: name, id and input from the item, the name
canonicalized; both a truthy name and a truthy id are required. -/
def mapMcpItemToTool (item : JVal) : Option ToolInfo :=
  let toolName :=
    asStr (jsCoalesce (getField item "tool_name")
      (jsCoalesce (getField item "toolName")
        (jsCoalesce (getField item "tool") (getField item "name"))))
  let id := asStr (getField item "id")
  let input := jsCoalesce (getField item "input") (getField item "arguments")
  match toolName, id with
  | some n, some i =>
    if n == "" || i == "" then none
    else some ⟨normalizeMcpToolName n (some item), i, input⟩
  | _, _ => none

/-
The chat driver. The source is an async generator; here one turn is a pure
function from the upstream event list to the yielded event list, together
with the error the generator raises, if any. The instance state that the
driver reads and writes (the tool-parent map, the running final text and
the session-id notification channel) is threaded explicitly.
-/

/-- The mutable state the chat driver threads: the running final text
(local to one turn), the tool-parent map (instance state, persists across
turns) and the session-id update callbacks issued so far. -/
structure ChatState where
  finalText : String
  toolParents : List (String × String)
  sessionIdUpdates : List String

/-- JS Map.get on the parent map. -/
def mapGet (m : List (String × String)) (k : String) : Option String :=
  m.lookup k

/-- JS Map.has on the parent map. -/
def mapHas (m : List (String × String)) (k : String) : Bool :=
  (m.lookup k).isSome

/-- JS Map.set on the parent map: the new binding shadows any older one
(lookup reads the newest first). -/
def mapSet (m : List (String × String)) (k v : String) : List (String × String) :=
  (k, v) :: m

/-- The thread.started notice: report a non-empty string thread_id through
the session-id callback; the event then falls through to the other rules. -/
def threadStartedUpdate (st : ChatState) (e : JVal) (type : String) : ChatState :=
  if type == "thread.started" then
    match getField e "thread_id" with
    | some (.str tid) =>
      if 0 < tid.length then { st with sessionIdUpdates := st.sessionIdUpdates ++ [tid] } else st
    | _ => st
  else st

/-- Streamed rule h: a truthy complete text on a completed or agent-message
event replaces the running final text and yields text_complete. -/
def chatBranchH (st : ChatState) (type : String) (nIT : Option String)
    (textComplete : Option String) : List AgentEvent × ChatState :=
  if optStrTruthy textComplete && (jsIncludes type "completed" || nIT == some "agentmessage") then
    ([.text_complete (textComplete.getD "")], { st with finalText := textComplete.getD "" })
  else ([], st)

/-- Streamed rule g: a tool result on a completed event; a parent seen for
the first time is recorded and announced by a parent_update just before
the tool_result. -/
def chatBranchG (st : ChatState) (type : String) (parent : Option String)
    (toolResult : Option ToolResult) (next : List AgentEvent × ChatState) :
    List AgentEvent × ChatState :=
  match toolResult with
  | some tr =>
    if jsIncludes type "completed" || type == "item/completed" then
      match parent with
      | some p =>
        if mapHas st.toolParents tr.toolUseId then
          ([.tool_result tr.toolUseId tr.result tr.isError], st)
        else
          ([.parent_update tr.toolUseId p, .tool_result tr.toolUseId tr.result tr.isError],
           { st with toolParents := mapSet st.toolParents tr.toolUseId p })
      | none => ([.tool_result tr.toolUseId tr.result tr.isError], st)
    else next
  | none => next

/-- Streamed rule f: a generic tool descriptor on a tool event yields
tool_start; an observed parent is recorded unconditionally. -/
def chatBranchF (st : ChatState) (type : String) (parent : Option String) (e : JVal)
    (toolInfo : Option ToolInfo) (next : List AgentEvent × ChatState) :
    List AgentEvent × ChatState :=
  match toolInfo with
  | some ti =>
    if jsIncludes type "tool" then
      let fields := extractIntentDisplayName ti.input (some e) none
      let st2 :=
        match parent with
        | some p => { st with toolParents := mapSet st.toolParents ti.toolUseId p }
        | none => st
      ([.tool_start ti.toolName ti.toolUseId (ti.input.getD (.obj [])) fields.1 fields.2 parent],
       st2)
    else next
  | none => next

/-- Streamed rule e: an mcp_tool_call item event maps to an MCP tool_start;
an observed parent is recorded unconditionally. -/
def chatBranchE (st : ChatState) (type : String) (nIT : Option String) (parent : Option String)
    (e : JVal) (item : Option JVal) (next : List AgentEvent × ChatState) :
    List AgentEvent × ChatState :=
  if isItemEvent type && nIT == some "mcptoolcall" then
    match item with
    | some itemV =>
      if jsTruthy itemV then
        match mapMcpItemToTool itemV with
        | some mapped =>
          let fields := extractIntentDisplayName mapped.input (some e) (some itemV)
          let st2 :=
            match parent with
            | some p => { st with toolParents := mapSet st.toolParents mapped.toolUseId p }
            | none => st
          ([.tool_start mapped.toolName mapped.toolUseId (mapped.input.getD (.obj []))
              fields.1 fields.2 parent], st2)
        | none => ([], st)
      else ([], st)
    | none => ([], st)
  else next

/-- Streamed rule d: a command_execution item event maps to a synthetic
bash tool_start; an observed parent is recorded unconditionally. -/
def chatBranchD (st : ChatState) (type : String) (nIT : Option String) (parent : Option String)
    (e : JVal) (item : Option JVal) (next : List AgentEvent × ChatState) :
    List AgentEvent × ChatState :=
  if isItemEvent type && nIT == some "commandexecution" then
    match item with
    | some itemV =>
      if jsTruthy itemV then
        match mapCommandItemToTool itemV with
        | some mapped =>
          let fields := extractIntentDisplayName mapped.input (some e) (some itemV)
          let st2 :=
            match parent with
            | some p => { st with toolParents := mapSet st.toolParents mapped.toolUseId p }
            | none => st
          ([.tool_start mapped.toolName mapped.toolUseId (mapped.input.getD (.obj []))
              fields.1 fields.2 parent], st2)
        | none => ([], st)
      else ([], st)
    | none => ([], st)
  else next

/-- Streamed rule c: the two output-delta literals are re-normalized as a
tool result when extraction succeeds. -/
def chatBranchOutputDelta (st : ChatState) (type lit : String) (toolResult : Option ToolResult)
    (next : List AgentEvent × ChatState) : List AgentEvent × ChatState :=
  if type == lit then
    match toolResult with
    | some tr => ([.tool_result tr.toolUseId tr.result tr.isError], st)
    | none => ([], st)
  else next

/-- Streamed rule b: a truthy text delta on a delta or agent-message event
accumulates into the final text and yields text_delta. -/
def chatBranchB (st : ChatState) (type : String) (nIT : Option String)
    (textDelta : Option String) (next : List AgentEvent × ChatState) :
    List AgentEvent × ChatState :=
  if optStrTruthy textDelta && (jsIncludes type "delta" || nIT == some "agentmessage") then
    ([.text_delta (textDelta.getD "")],
     { st with finalText := st.finalText ++ textDelta.getD "" })
  else next

/-- One upstream event through the streamed loop body of chat, rules a-h in
the source's order (each rule continues to the next event once it fires). -/
def stepStreamed (st : ChatState) (e : JVal) : List AgentEvent × ChatState :=
  let type := (extractEventType e).getD ""
  let st1 := threadStartedUpdate st e type
  let nIT := normalizedItemTypeOf e
  let parent := extractParentToolUseId e
  let toolResult := normalizeToolResult e
  let item := eventItem e
  chatBranchB st1 type nIT (extractTextDelta e)
    (chatBranchOutputDelta st1 type "item/commandExecution/outputDelta" toolResult
      (chatBranchOutputDelta st1 type "item/fileChange/outputDelta" toolResult
        (chatBranchD st1 type nIT parent e item
          (chatBranchE st1 type nIT parent e item
            (chatBranchF st1 type parent e (extractToolInfo e)
              (chatBranchG st1 type parent toolResult
                (chatBranchH st1 type nIT (extractTextComplete e))))))))

/-- The streamed for-await loop over the whole event list. -/
def chatLoop : List JVal → ChatState → List AgentEvent × ChatState
  | [], st => ([], st)
  | e :: rest, st =>
    let r1 := stepStreamed st e
    let r2 := chatLoop rest r1.2
    (r1.1 ++ r2.1, r2.2)

/-- What one chat turn produced: the yielded events in order, the error the
generator raised (if any) and the tool-parent map it leaves behind. -/
structure ChatOut where
  events : List AgentEvent
  error : Option JsError
  toolParents : List (String × String)

/-- The driver state at the start of a turn: empty final text, the
instance's accumulated parent map, no callbacks yet. -/
def chatInitState (parents : List (String × String)) : ChatState :=
  { finalText := "", toolParents := parents, sessionIdUpdates := [] }

/-- The attachments notice at the top of chat (attachments supplied and
non-empty). -/
def attachmentsPrefix (hasAttachments : Bool) : List AgentEvent :=
  if hasAttachments then [.info "Codex SDK currently ignores file attachments."] else []

/-- One chat turn on the streamed path. After the loop the source reads
resultText, a const declared inside the non-streamed else-block and out of
scope here; the read is reached exactly when the accumulated final text is
empty (the && short-circuits otherwise) and then raises a ReferenceError,
ending the generator before any trailing event. With non-empty final text
the turn ends with the trailing text_complete and the final complete. -/
def chatStreamed (parents : List (String × String)) (hasAttachments : Bool)
    (es : List JVal) : ChatOut :=
  let pre := attachmentsPrefix hasAttachments
  let r := chatLoop es (chatInitState parents)
  if r.2.finalText = "" then
    { events := pre ++ r.1, error := some .referenceError, toolParents := r.2.toolParents }
  else
    { events := pre ++ r.1 ++ [.text_complete r.2.finalText, .complete],
      error := none, toolParents := r.2.toolParents }

/-- One event of the non-streamed fallback when the run result's event
collection is async-iterable: the reduced rules are an unconditional text
delta, the generic tool rule, the tool-result rule on completed events and
an unconditional complete text. -/
def stepRunAsync (st : ChatState) (e : JVal) : List AgentEvent × ChatState :=
  let type := (extractEventType e).getD ""
  let parent := extractParentToolUseId e
  let textDelta := extractTextDelta e
  let textComplete := extractTextComplete e
  let runH : List AgentEvent × ChatState :=
    if optStrTruthy textComplete then
      ([.text_complete (textComplete.getD "")], { st with finalText := textComplete.getD "" })
    else ([], st)
  let runG : List AgentEvent × ChatState :=
    match normalizeToolResult e with
    | some tr =>
      if jsIncludes type "completed" then
        match parent with
        | some p =>
          if mapHas st.toolParents tr.toolUseId then
            ([.tool_result tr.toolUseId tr.result tr.isError], st)
          else
            ([.parent_update tr.toolUseId p, .tool_result tr.toolUseId tr.result tr.isError],
             { st with toolParents := mapSet st.toolParents tr.toolUseId p })
        | none => ([.tool_result tr.toolUseId tr.result tr.isError], st)
      else runH
    | none => runH
  let runF : List AgentEvent × ChatState :=
    match extractToolInfo e with
    | some ti =>
      if jsIncludes type "tool" then
        let fields := extractIntentDisplayName ti.input (some e) none
        let st2 :=
          match parent with
          | some p => { st with toolParents := mapSet st.toolParents ti.toolUseId p }
          | none => st
        ([.tool_start ti.toolName ti.toolUseId (ti.input.getD (.obj [])) fields.1 fields.2 parent],
         st2)
      else runG
    | none => runG
  if optStrTruthy textDelta then
    ([.text_delta (textDelta.getD "")], { st with finalText := st.finalText ++ textDelta.getD "" })
  else runF

/-- One event of the non-streamed fallback when the event collection is
only sync-iterable: the source's loop checks nothing but the text delta. -/
def stepRunSync (st : ChatState) (e : JVal) : List AgentEvent × ChatState :=
  if optStrTruthy (extractTextDelta e) then
    ([.text_delta ((extractTextDelta e).getD "")],
     { st with finalText := st.finalText ++ (extractTextDelta e).getD "" })
  else ([], st)

/-- Whether the run result's event collection is async-iterable or only
sync-iterable. -/
inductive IterKind where
  | asyncIter
  | syncIter

/-- The fallback loop over the run result's event collection. -/
def chatRunEvents (k : IterKind) : List JVal → ChatState → List AgentEvent × ChatState
  | [], st => ([], st)
  | e :: rest, st =>
    let r1 := match k with
      | .asyncIter => stepRunAsync st e
      | .syncIter => stepRunSync st e
    let r2 := chatRunEvents k rest r1.2
    (r1.1 ++ r2.1, r2.2)

/-- One chat turn on the non-streamed path: run to completion, read the
returned value's complete text, iterate its event collection when there is
one, then the in-scope fallback to the returned text; the trailing block
then behaves as on the streamed path (the out-of-scope resultText read
raises exactly when the final text is still empty). -/
def chatRun (parents : List (String × String)) (hasAttachments : Bool) (runResult : JVal)
    (eventsColl : Option (IterKind × List JVal)) : ChatOut :=
  let pre := attachmentsPrefix hasAttachments
  let resultText := extractTextComplete runResult
  let r :=
    match eventsColl with
    | some (k, es) => chatRunEvents k es (chatInitState parents)
    | none => ([], chatInitState parents)
  let st2 :=
    if r.2.finalText = "" && optStrTruthy resultText then
      { r.2 with finalText := resultText.getD "" }
    else r.2
  if st2.finalText = "" then
    { events := pre ++ r.1, error := some .referenceError, toolParents := st2.toolParents }
  else
    { events := pre ++ r.1 ++ [.text_complete st2.finalText, .complete],
      error := none, toolParents := st2.toolParents }

/-- The upstream material of one turn: either the thread supports
runStreamed and delivers an event stream, or the turn runs to completion
with a returned value and an optional event collection. -/
inductive RunInput where
  | streamed (es : List JVal)
  | direct (runResult : JVal) (eventsColl : Option (IterKind × List JVal))

/-- One whole chat turn. -/
def chat (parents : List (String × String)) (hasAttachments : Bool) :
    RunInput → ChatOut
  | .streamed es => chatStreamed parents hasAttachments es
  | .direct runResult eventsColl => chatRun parents hasAttachments runResult eventsColl

/-
Agent session configuration (codex-agent.ts): buildThreadOptions and the
three configuration mutators setModel, setThinkingLevel and
setUltrathinkOverride.
-/

/-- The thread options buildThreadOptions assembles. -/
structure ThreadOptions where
  model : Option String
  workingDirectory : Option String
  skipGitRepoCheck : Bool
  modelReasoningEffort : Option CodexEffort
deriving DecidableEq

/-- The external SDK thread handle: its assigned id (possibly not yet
known) and the options it was opened with. -/
structure SDKThread where
  id : Option String
  options : ThreadOptions
deriving DecidableEq

/-- Model of the external SDK's resumeThread (an out-of-scope collaborator,
specified by interface only): resuming a thread id with options returns a
handle carrying that same external id. -/
def codexResumeThread (id : String) (options : ThreadOptions) : SDKThread :=
  { id := some id, options := options }

/-- The CodexAgent instance fields the mutators read and write. -/
structure AgentState where
  model : Option String
  thinkingLevel : ThinkingLevel
  ultrathinkOverride : Bool
  workingDirectory : Option String
  codexCached : Bool
  thread : Option SDKThread
deriving DecidableEq

/-- In the source the thinking level is one of seven non-empty string
literals, so its JS truthiness is always true. -/
def thinkingLevelTruthy (_ : ThinkingLevel) : Bool := true

/-- buildThreadOptions of codex-agent.ts: model and working directory only
when truthy, the fixed skip of the git-repo check, and the reasoning
effort from the ultrathink override or the thinking level (the condition
is always reached since the level is truthy), normalized against the raw
model id. -/
def buildThreadOptions (s : AgentState) : ThreadOptions :=
  { model := if optStrTruthy s.model then s.model else none,
    workingDirectory := if optStrTruthy s.workingDirectory then s.workingDirectory else none,
    skipGitRepoCheck := true,
    modelReasoningEffort :=
      if s.ultrathinkOverride || thinkingLevelTruthy s.thinkingLevel then
        some (normalizeThinkingLevelForCodex
          (if s.ultrathinkOverride then .xhigh else s.thinkingLevel) s.model)
      else none }

/-- The truthiness of `this.thread?.id`: a cached handle whose id is a
non-empty string. -/
def threadIdKnown (s : AgentState) : Option String :=
  match s.thread with
  | some t =>
    match t.id with
    | some i => if i == "" then none else some i
    | none => none
  | none => none

/-- setModel: store the model; with a truthy thread id and a cached
connection, eagerly resume the thread under freshly built options,
otherwise null the cached handle. -/
def setModel (m : String) (s : AgentState) : AgentState :=
  let s1 := { s with model := some m }
  match threadIdKnown s1, s1.codexCached with
  | some tid, true => { s1 with thread := some (codexResumeThread tid (buildThreadOptions s1)) }
  | _, _ => { s1 with thread := none }

/-- setThinkingLevel: store the level; then the same resume-or-invalidate
step as setModel. -/
def setThinkingLevel (level : ThinkingLevel) (s : AgentState) : AgentState :=
  let s1 := { s with thinkingLevel := level }
  match threadIdKnown s1, s1.codexCached with
  | some tid, true => { s1 with thread := some (codexResumeThread tid (buildThreadOptions s1)) }
  | _, _ => { s1 with thread := none }

/-- setUltrathinkOverride: store the flag; with a truthy thread id and a
cached connection, eagerly resume — but the source has no else branch, so
with no id known the cached handle is left untouched. -/
def setUltrathinkOverride (enabled : Bool) (s : AgentState) : AgentState :=
  let s1 := { s with ultrathinkOverride := enabled }
  match threadIdKnown s1, s1.codexCached with
  | some tid, true => { s1 with thread := some (codexResumeThread tid (buildThreadOptions s1)) }
  | _, _ => s1

/-
Helper predicates and lemmas about the chat driver, shared by the claim
theorems below.
-/

/-- Whether an event is a text_complete. -/
def isTC : AgentEvent → Bool
  | .text_complete _ => true
  | _ => false

/-- Whether an event is a text_delta. -/
def isTextDelta : AgentEvent → Bool
  | .text_delta _ => true
  | _ => false

/-- Whether an event is a tool_start for the given invocation id. -/
def isToolStartId (child : String) : AgentEvent → Bool
  | .tool_start _ id _ _ _ _ => id == child
  | _ => false

/-- The number of text_complete events in a yielded list. -/
def tcCount (l : List AgentEvent) : Nat :=
  l.countP (fun ev => isTC ev)

theorem tcCount_append (a b : List AgentEvent) : tcCount (a ++ b) = tcCount a + tcCount b := by
  simp [tcCount, List.countP_append]

theorem tcCount_attachments (h : Bool) : tcCount (attachmentsPrefix h) = 0 := by
  cases h <;> rfl

theorem optStrTruthy_getD_ne {o : Option String} (h : optStrTruthy o = true) :
    o.getD "" ≠ "" := by
  cases o with
  | none => simp [optStrTruthy] at h
  | some s =>
    simpa [optStrTruthy] using h

theorem string_append_ne_left {a : String} (b : String) (h : a ≠ "") : a ++ b ≠ "" := by
  intro hc
  apply h
  have hd : a.data ++ b.data = [] := congrArg String.data hc
  have ha : a.data = [] := (List.append_eq_nil.mp hd).1
  cases a with
  | mk d => simpa [String.ext_iff] using ha

/-- The invariant the C2 argument threads through the streamed loop: the
final text never becomes empty once non-empty, and a step that yields a
text_complete leaves it non-empty. -/
def FTOk (ft : String) (r : List AgentEvent × ChatState) : Prop :=
  (ft ≠ "" → r.2.finalText ≠ "") ∧ (0 < tcCount r.1 → r.2.finalText ≠ "")

theorem ftok_H (st : ChatState) (type : String) (nIT : Option String) (tc : Option String) :
    FTOk st.finalText (chatBranchH st type nIT tc) := by
  unfold chatBranchH FTOk
  split
  · next h =>
    have htc : optStrTruthy tc = true := ((Bool.and_eq_true _ _).mp h).1
    exact ⟨fun _ => optStrTruthy_getD_ne htc, fun _ => optStrTruthy_getD_ne htc⟩
  · exact ⟨fun h => h, fun h => by simp [tcCount] at h⟩

theorem ftok_G (st : ChatState) (type : String) (parent : Option String)
    (tr : Option ToolResult) (next : List AgentEvent × ChatState)
    (h : FTOk st.finalText next) :
    FTOk st.finalText (chatBranchG st type parent tr next) := by
  unfold chatBranchG
  split
  · split
    · split
      · split
        · exact ⟨fun h => h, fun hc => by simp [tcCount, isTC] at hc⟩
        · exact ⟨fun h => h, fun hc => by simp [tcCount, isTC] at hc⟩
      · exact ⟨fun h => h, fun hc => by simp [tcCount, isTC] at hc⟩
    · exact h
  · exact h

theorem ftok_F (st : ChatState) (type : String) (parent : Option String) (e : JVal)
    (ti : Option ToolInfo) (next : List AgentEvent × ChatState)
    (h : FTOk st.finalText next) :
    FTOk st.finalText (chatBranchF st type parent e ti next) := by
  unfold chatBranchF
  split
  · split
    · split <;> exact ⟨fun h => h, fun hc => by simp [tcCount, isTC] at hc⟩
    · exact h
  · exact h

theorem ftok_E (st : ChatState) (type : String) (nIT : Option String) (parent : Option String)
    (e : JVal) (item : Option JVal) (next : List AgentEvent × ChatState)
    (h : FTOk st.finalText next) :
    FTOk st.finalText (chatBranchE st type nIT parent e item next) := by
  unfold chatBranchE
  split
  · split
    · split
      · split
        · split <;> exact ⟨fun h => h, fun hc => by simp [tcCount, isTC] at hc⟩
        · exact ⟨fun h => h, fun hc => by simp [tcCount] at hc⟩
      · exact ⟨fun h => h, fun hc => by simp [tcCount] at hc⟩
    · exact ⟨fun h => h, fun hc => by simp [tcCount] at hc⟩
  · exact h

theorem ftok_D (st : ChatState) (type : String) (nIT : Option String) (parent : Option String)
    (e : JVal) (item : Option JVal) (next : List AgentEvent × ChatState)
    (h : FTOk st.finalText next) :
    FTOk st.finalText (chatBranchD st type nIT parent e item next) := by
  unfold chatBranchD
  split
  · split
    · split
      · split
        · split <;> exact ⟨fun h => h, fun hc => by simp [tcCount, isTC] at hc⟩
        · exact ⟨fun h => h, fun hc => by simp [tcCount] at hc⟩
      · exact ⟨fun h => h, fun hc => by simp [tcCount] at hc⟩
    · exact ⟨fun h => h, fun hc => by simp [tcCount] at hc⟩
  · exact h

theorem ftok_OutputDelta (st : ChatState) (type lit : String) (tr : Option ToolResult)
    (next : List AgentEvent × ChatState) (h : FTOk st.finalText next) :
    FTOk st.finalText (chatBranchOutputDelta st type lit tr next) := by
  unfold chatBranchOutputDelta
  split
  · split
    · exact ⟨fun h => h, fun hc => by simp [tcCount, isTC] at hc⟩
    · exact ⟨fun h => h, fun hc => by simp [tcCount] at hc⟩
  · exact h

theorem ftok_B (st : ChatState) (type : String) (nIT : Option String) (td : Option String)
    (next : List AgentEvent × ChatState) (h : FTOk st.finalText next) :
    FTOk st.finalText (chatBranchB st type nIT td next) := by
  unfold chatBranchB
  split
  · exact ⟨fun hf => string_append_ne_left _ hf, fun hc => by simp [tcCount, isTC] at hc⟩
  · exact h

theorem threadStartedUpdate_finalText (st : ChatState) (e : JVal) (type : String) :
    (threadStartedUpdate st e type).finalText = st.finalText := by
  unfold threadStartedUpdate
  split
  · split
    · split <;> rfl
    · rfl
  · rfl

theorem threadStartedUpdate_toolParents (st : ChatState) (e : JVal) (type : String) :
    (threadStartedUpdate st e type).toolParents = st.toolParents := by
  unfold threadStartedUpdate
  split
  · split
    · split <;> rfl
    · rfl
  · rfl

theorem ftok_step (st : ChatState) (e : JVal) : FTOk st.finalText (stepStreamed st e) := by
  unfold stepStreamed
  have hft := threadStartedUpdate_finalText st e ((extractEventType e).getD "")
  rw [← hft]
  exact ftok_B _ _ _ _ _ (ftok_OutputDelta _ _ _ _ _ (ftok_OutputDelta _ _ _ _ _
    (ftok_D _ _ _ _ _ _ _ (ftok_E _ _ _ _ _ _ _ (ftok_F _ _ _ _ _ _
      (ftok_G _ _ _ _ _ (ftok_H _ _ _ _)))))))

theorem chatLoop_finalText_ne (es : List JVal) :
    ∀ st : ChatState, st.finalText ≠ "" → (chatLoop es st).2.finalText ≠ "" := by
  induction es with
  | nil => intro st h; exact h
  | cons e rest ih =>
    intro st h
    have h1 := (ftok_step st e).1 h
    simpa [chatLoop] using ih (stepStreamed st e).2 h1

theorem chatLoop_tc_finalText (es : List JVal) :
    ∀ st : ChatState, 0 < tcCount (chatLoop es st).1 → (chatLoop es st).2.finalText ≠ "" := by
  induction es with
  | nil => intro st h; simp [chatLoop, tcCount] at h
  | cons e rest ih =>
    intro st h
    rw [chatLoop] at h ⊢
    rw [tcCount_append] at h
    rcases Nat.lt_or_lt_of_ne (Nat.ne_of_gt h) with _ | _
    · omega
    · by_cases h1 : 0 < tcCount (stepStreamed st e).1
      · have hft := (ftok_step st e).2 h1
        exact chatLoop_finalText_ne rest _ hft
      · have h2 : 0 < tcCount (chatLoop rest (stepStreamed st e).2).1 := by omega
        exact ih _ h2

theorem mapGet_set_ne (m : List (String × String)) (k v child : String) (h : child ≠ k) :
    mapGet (mapSet m k v) child = mapGet m child := by
  have hb : (child == k) = false := by simpa using h
  simp [mapGet, mapSet, List.lookup, hb]

theorem mapGet_some_has (m : List (String × String)) (child p : String)
    (h : mapGet m child = some p) : mapHas m child = true := by
  simp [mapHas, show List.lookup child m = some p from h]

/-- The invariant the C6 argument threads through the streamed loop: a
recorded parent binding survives any step that does not yield a tool_start
for that child id. -/
def PPres (parents : List (String × String)) (r : List AgentEvent × ChatState) : Prop :=
  ∀ child p, mapGet parents child = some p →
    (r.1.all fun ev => !isToolStartId child ev) = true →
    mapGet r.2.toolParents child = some p

theorem ppres_H (st : ChatState) (type : String) (nIT : Option String) (tc : Option String) :
    PPres st.toolParents (chatBranchH st type nIT tc) := by
  unfold chatBranchH
  split <;> exact fun child p h _ => h

theorem ppres_G (st : ChatState) (type : String) (parent : Option String)
    (tr : Option ToolResult) (next : List AgentEvent × ChatState)
    (hn : PPres st.toolParents next) :
    PPres st.toolParents (chatBranchG st type parent tr next) := by
  unfold chatBranchG
  split
  · next tr' =>
    split
    · split
      · split
        · exact fun child p h _ => h
        · next hhas =>
          intro child p h _
          by_cases hc : child = tr'.toolUseId
          · rw [hc] at h
            rw [mapGet_some_has st.toolParents tr'.toolUseId p h] at hhas
            simp at hhas
          · simpa [mapGet_set_ne st.toolParents tr'.toolUseId _ child hc] using h
      · exact fun child p h _ => h
    · exact hn
  · exact hn

theorem ppres_F (st : ChatState) (type : String) (parent : Option String) (e : JVal)
    (ti : Option ToolInfo) (next : List AgentEvent × ChatState)
    (hn : PPres st.toolParents next) :
    PPres st.toolParents (chatBranchF st type parent e ti next) := by
  unfold chatBranchF
  split
  · next ti' =>
    split
    · split
      · intro child p h hall
        have hne : (ti'.toolUseId == child) = false := by
          simpa [isToolStartId] using hall
        have hcn : child ≠ ti'.toolUseId := fun hc => by simp [hc] at hne
        simpa [mapGet_set_ne st.toolParents ti'.toolUseId _ child hcn] using h
      · exact fun child p h _ => h
    · exact hn
  · exact hn

theorem ppres_E (st : ChatState) (type : String) (nIT : Option String) (parent : Option String)
    (e : JVal) (item : Option JVal) (next : List AgentEvent × ChatState)
    (hn : PPres st.toolParents next) :
    PPres st.toolParents (chatBranchE st type nIT parent e item next) := by
  unfold chatBranchE
  split
  · split
    · split
      · split
        · next mapped _heq =>
          split
          · intro child p h hall
            have hne : (mapped.toolUseId == child) = false := by
              simpa [isToolStartId] using hall
            have hcn : child ≠ mapped.toolUseId := fun hc => by simp [hc] at hne
            simpa [mapGet_set_ne st.toolParents mapped.toolUseId _ child hcn] using h
          · exact fun child p h _ => h
        · exact fun child p h _ => h
      · exact fun child p h _ => h
    · exact fun child p h _ => h
  · exact hn

theorem ppres_D (st : ChatState) (type : String) (nIT : Option String) (parent : Option String)
    (e : JVal) (item : Option JVal) (next : List AgentEvent × ChatState)
    (hn : PPres st.toolParents next) :
    PPres st.toolParents (chatBranchD st type nIT parent e item next) := by
  unfold chatBranchD
  split
  · split
    · split
      · split
        · next mapped _heq =>
          split
          · intro child p h hall
            have hne : (mapped.toolUseId == child) = false := by
              simpa [isToolStartId] using hall
            have hcn : child ≠ mapped.toolUseId := fun hc => by simp [hc] at hne
            simpa [mapGet_set_ne st.toolParents mapped.toolUseId _ child hcn] using h
          · exact fun child p h _ => h
        · exact fun child p h _ => h
      · exact fun child p h _ => h
    · exact fun child p h _ => h
  · exact hn

theorem ppres_OutputDelta (st : ChatState) (type lit : String) (tr : Option ToolResult)
    (next : List AgentEvent × ChatState) (hn : PPres st.toolParents next) :
    PPres st.toolParents (chatBranchOutputDelta st type lit tr next) := by
  unfold chatBranchOutputDelta
  split
  · split <;> exact fun child p h _ => h
  · exact hn

theorem ppres_B (st : ChatState) (type : String) (nIT : Option String) (td : Option String)
    (next : List AgentEvent × ChatState) (hn : PPres st.toolParents next) :
    PPres st.toolParents (chatBranchB st type nIT td next) := by
  unfold chatBranchB
  split
  · exact fun child p h _ => h
  · exact hn

theorem ppres_step (st : ChatState) (e : JVal) : PPres st.toolParents (stepStreamed st e) := by
  unfold stepStreamed
  have hp := threadStartedUpdate_toolParents st e ((extractEventType e).getD "")
  rw [← hp]
  exact ppres_B _ _ _ _ _ (ppres_OutputDelta _ _ _ _ _ (ppres_OutputDelta _ _ _ _ _
    (ppres_D _ _ _ _ _ _ _ (ppres_E _ _ _ _ _ _ _ (ppres_F _ _ _ _ _ _
      (ppres_G _ _ _ _ _ (ppres_H _ _ _ _)))))))

/-
The claims.
-/

/-- The input of claim C1, the event with id t1, exit_code 1, result out
and stderr err. -/
def c1Event : JVal :=
  .obj [("id", .str "t1"), ("exit_code", .num 1), ("result", .str "out"), ("stderr", .str "err")]

/-- Claim C1. The claim says normalizeToolResult flags this input as an
error (a numeric non-zero exit code is present). The code disagrees: in
its isError expression, === binds tighter than ??, so the operand
item?.status === 'failed' is a boolean, never nullish, and the error-field
and exit-code operands after it are unreachable; the result text does
contain out and then err, but the error flag is false. This theorem
evaluates the embedded source on the claimed input. -/
theorem c1_exit_code_not_flagged :
    normalizeToolResult c1Event =
      some { toolUseId := "t1", result := "out\n\n[stderr]\nerr", isError := false } := by
  rfl

/-- Claim C3. The claim says every finite stream ends with exactly one
complete event, and the empty stream yields exactly the one-element
sequence with complete. The code disagrees: after the loop, the fallback
reads resultText, a const declared inside the non-streamed else-block and
not in scope there; with an empty stream the final text is empty, the read
is reached, and the turn raises a ReferenceError having yielded nothing at
all, so no complete event is ever produced. This theorem evaluates the
embedded chat turn on the empty streamed input. -/
theorem c3_empty_stream_reference_error :
    chatStreamed [] false [] =
      { events := [], error := some .referenceError, toolParents := [] } := by
  rfl

/-- Claim C4 (amended): in the non-streaming fallback the async iteration
applies the reduced rules (text delta, generic tool start, tool result,
complete text), but the sync iteration applies only the text-delta rule,
so every event it yields is a text_delta and tool events produce nothing
under sync iteration. -/
theorem c4_sync_iteration_only_text_delta (st : ChatState) (e : JVal) :
    ((stepRunSync st e).1.all fun ev => isTextDelta ev) = true := by
  unfold stepRunSync
  split <;> simp [isTextDelta]

/-- The input of claim C4's counterexample: a tool event with a name and a
call id. -/
def c4Event : JVal :=
  .obj [("type", .str "tool_call"), ("tool_name", .str "search"), ("tool_call_id", .str "t9")]

/-- Claim C4, counterexample to the claim as stated: this event produces a
tool_start under the async iteration and produces nothing under the sync
iteration. -/
theorem c4_async_sync_divergence_counterexample :
    (stepRunAsync (chatInitState []) c4Event).1
        = [.tool_start "search" "t9" (.obj []) none none none]
      ∧ (stepRunSync (chatInitState []) c4Event).1 = [] :=
  ⟨rfl, rfl⟩

/-- Claim C7: MCP tool-name canonicalization passes the canonical
mcp__a__b through unchanged and rewrites mcp.a.b, a.b, a:b and a/b to
mcp__a__b. -/
theorem c7_mcp_canonicalization :
    normalizeMcpToolName "mcp__a__b" none = "mcp__a__b"
    ∧ normalizeMcpToolName "mcp.a.b" none = "mcp__a__b"
    ∧ normalizeMcpToolName "a.b" none = "mcp__a__b"
    ∧ normalizeMcpToolName "a:b" none = "mcp__a__b"
    ∧ normalizeMcpToolName "a/b" none = "mcp__a__b" :=
  ⟨rfl, rfl, rfl, rfl, rfl⟩

/-- Claim C8: for all seven thinking levels and every optional model id,
normalizeThinkingLevelForCodex lands in the four-value codomain (by type)
and agrees with the spec's table: pass-through for the four native values,
off to low, think to medium, max to high, with the mini collapse; and for
a mini model the outputs low and xhigh never occur. -/
theorem c8_codex_thinking_level (level : ThinkingLevel) (modelId : Option String) :
    normalizeThinkingLevelForCodex level modelId
        = specNormalizeForProviderB level (isMiniModel modelId)
    ∧ (isMiniModel modelId = true →
        normalizeThinkingLevelForCodex level modelId ≠ CodexEffort.low
        ∧ normalizeThinkingLevelForCodex level modelId ≠ CodexEffort.xhigh) := by
  cases hm : isMiniModel modelId <;> cases level <;>
    simp [normalizeThinkingLevelForCodex, specNormalizeForProviderB, hm]

/-- Claim C9: readCodexAuthFile returns null when the file is missing,
when reading raises, and when parsing raises; it returns the parsed object
exactly when parsing succeeds; and every error the body raises is caught
and turned into null, so the function never raises to its caller. -/
theorem c9_read_codex_auth_total (fs : FsState) (parse : String → Option CodexAuthFile) :
    readCodexAuthFile .missing parse = none
    ∧ readCodexAuthFile .unreadable parse = none
    ∧ (∀ raw, parse raw = none → readCodexAuthFile (.content raw) parse = none)
    ∧ (∀ raw f, parse raw = some f → readCodexAuthFile (.content raw) parse = some f)
    ∧ (∀ err, readCodexAuthFileBody fs parse = .error err →
        readCodexAuthFile fs parse = none) := by
  refine ⟨rfl, rfl, ?_, ?_, ?_⟩
  · intro raw hp
    simp [readCodexAuthFile, readCodexAuthFileBody, hp]
  · intro raw f hp
    simp [readCodexAuthFile, readCodexAuthFileBody, hp]
  · intro err he
    simp [readCodexAuthFile, he]

/-- The length gate shared by the three title entry points, proved once
over an arbitrary trimmed string. -/
theorem title_gate_bound (t : String) :
    ((if (t != "" && decide (0 < t.length) && decide (t.length < 100)) = true
        then some t else none).isSome = true → t ≠ "" ∧ t.length < 100)
    ∧ (100 ≤ t.length →
        (if (t != "" && decide (0 < t.length) && decide (t.length < 100)) = true
          then some t else none) = (none : Option String)) := by
  constructor
  · intro h
    by_cases hc : (t != "" && decide (0 < t.length) && decide (t.length < 100)) = true
    · have h1 := ((Bool.and_eq_true _ _).mp hc).1
      have h2 := ((Bool.and_eq_true _ _).mp h1).1
      have h3 := ((Bool.and_eq_true _ _).mp hc).2
      exact ⟨by simpa using h2, by simpa using h3⟩
    · simp [hc] at h
  · intro h
    have hlt : ¬ t.length < 100 := by omega
    rw [decide_eq_false hlt]
    simp

/-- Claim C10: each title entry point returns null unless the trimmed
model output is non-empty and strictly shorter than 100 characters; in
particular a trimmed output of 100 characters or more is discarded. -/
theorem c10_title_length_bound (resp : Option String) (bs cs : List String) :
    ((generateTitleWithCodexResult resp).isSome = true →
        jsTrim (resp.getD "") ≠ "" ∧ (jsTrim (resp.getD "")).length < 100)
    ∧ (100 ≤ (jsTrim (resp.getD "")).length → generateTitleWithCodexResult resp = none)
    ∧ ((generateSessionTitleResult bs).isSome = true →
        jsTrim (titleFromBlocks bs) ≠ "" ∧ (jsTrim (titleFromBlocks bs)).length < 100)
    ∧ (100 ≤ (jsTrim (titleFromBlocks bs)).length → generateSessionTitleResult bs = none)
    ∧ ((regenerateSessionTitleResult cs).isSome = true →
        jsTrim (titleFromBlocks cs) ≠ "" ∧ (jsTrim (titleFromBlocks cs)).length < 100)
    ∧ (100 ≤ (jsTrim (titleFromBlocks cs)).length → regenerateSessionTitleResult cs = none) :=
  ⟨(title_gate_bound (jsTrim (resp.getD ""))).1,
   (title_gate_bound (jsTrim (resp.getD ""))).2,
   (title_gate_bound (jsTrim (titleFromBlocks bs))).1,
   (title_gate_bound (jsTrim (titleFromBlocks bs))).2,
   (title_gate_bound (jsTrim (titleFromBlocks cs))).1,
   (title_gate_bound (jsTrim (titleFromBlocks cs))).2⟩

/-- Claim C2 (amended): the trailing synthetic text_complete is emitted
whenever the accumulated or completed text is non-empty at the end of the
loop, regardless of whether a text_complete was already emitted during the
loop; so whenever the loop emitted k > 0 text_complete events the whole
turn contains exactly k + 1 of them, and the claimed bound of at most one
fails. -/
theorem c2_trailing_text_complete_amended (parents : List (String × String))
    (hasAttachments : Bool) (es : List JVal)
    (h : 0 < tcCount (chatLoop es (chatInitState parents)).1) :
    tcCount (chatStreamed parents hasAttachments es).events
      = tcCount (chatLoop es (chatInitState parents)).1 + 1 := by
  have hft := chatLoop_tc_finalText es (chatInitState parents) h
  simp only [chatStreamed]
  rw [if_neg hft]
  dsimp only
  rw [tcCount_append, tcCount_append, tcCount_attachments]
  simp [tcCount, isTC, List.countP_cons, List.countP_nil]

/-- The input of claim C2's witness and counterexample: one completed
event carrying a final text, which already yields a text_complete inside
the loop. -/
def c2Event : JVal := .obj [("type", .str "turn.completed"), ("text", .str "hi")]

/-- Claim C2, witness: on the one-event stream above the loop emits one
text_complete and the whole turn emits two. -/
theorem c2_trailing_text_complete_witness :
    0 < tcCount (chatLoop [c2Event] (chatInitState [])).1
    ∧ tcCount (chatStreamed [] false [c2Event]).events
        = tcCount (chatLoop [c2Event] (chatInitState [])).1 + 1 :=
  ⟨by decide, c2_trailing_text_complete_amended [] false [c2Event] (by decide)⟩

/-- Claim C2, counterexample to the claim as stated: the one-event stream
above produces a sequence with two text_complete events, not at most
one. -/
theorem c2_two_text_complete_counterexample :
    tcCount (chatStreamed [] false [c2Event]).events = 2 := by
  decide

/-- Claim C5 (amended): with a truthy thread id and a cached connection,
each of the three mutators eagerly resumes the thread under freshly built
options and the resumed handle carries the same external id; with no id
known, setModel and setThinkingLevel null the cached handle — but
setUltrathinkOverride, which the claim also covers, does not (see the
counterexample). -/
theorem c5_mutators_amended (s : AgentState) (m : String) (level : ThinkingLevel)
    (enabled : Bool) (tid : String)
    (hid : threadIdKnown s = some tid) (hcx : s.codexCached = true) :
    (setModel m s).thread
        = some (codexResumeThread tid (buildThreadOptions { s with model := some m }))
    ∧ (setThinkingLevel level s).thread
        = some (codexResumeThread tid (buildThreadOptions { s with thinkingLevel := level }))
    ∧ (setUltrathinkOverride enabled s).thread
        = some (codexResumeThread tid (buildThreadOptions { s with ultrathinkOverride := enabled }))
    ∧ (codexResumeThread tid (buildThreadOptions { s with model := some m })).id = some tid
    ∧ (∀ s2 : AgentState, threadIdKnown s2 = none →
        (setModel m s2).thread = none ∧ (setThinkingLevel level s2).thread = none) := by
  refine ⟨?_, ?_, ?_, rfl, ?_⟩
  · simp only [setModel]
    rw [show threadIdKnown { s with model := some m } = some tid from hid,
      show ({ s with model := some m } : AgentState).codexCached = true from hcx]
  · simp only [setThinkingLevel]
    rw [show threadIdKnown { s with thinkingLevel := level } = some tid from hid,
      show ({ s with thinkingLevel := level } : AgentState).codexCached = true from hcx]
  · simp only [setUltrathinkOverride]
    rw [show threadIdKnown { s with ultrathinkOverride := enabled } = some tid from hid,
      show ({ s with ultrathinkOverride := enabled } : AgentState).codexCached = true from hcx]
  · intro s2 h2
    constructor
    · simp only [setModel]
      rw [show threadIdKnown { s2 with model := some m } = none from h2]
    · simp only [setThinkingLevel]
      rw [show threadIdKnown { s2 with thinkingLevel := level } = none from h2]

/-- A thread-options value for the C5 states. -/
def c5OptsBase : ThreadOptions :=
  { model := none, workingDirectory := none, skipGitRepoCheck := true,
    modelReasoningEffort := none }

/-- A cached thread handle with no assigned id yet. -/
def c5ThreadNoId : SDKThread := { id := none, options := c5OptsBase }

/-- An agent state holding a cached connection and a cached thread whose
id is not yet known. -/
def c5StateNoId : AgentState :=
  { model := none, thinkingLevel := .think, ultrathinkOverride := false,
    workingDirectory := none, codexCached := true, thread := some c5ThreadNoId }

/-- An agent state whose cached thread id is known. -/
def c5StateKnown : AgentState :=
  { c5StateNoId with thread := some { id := some "T1", options := c5OptsBase } }

/-- Claim C5, witness: on the concrete state with known id T1, setModel
eagerly resumes with fresh options under the same external id. -/
theorem c5_mutators_witness :
    threadIdKnown c5StateKnown = some "T1"
    ∧ c5StateKnown.codexCached = true
    ∧ (setModel "gpt-5.2" c5StateKnown).thread
        = some (codexResumeThread "T1"
            (buildThreadOptions { c5StateKnown with model := some "gpt-5.2" })) :=
  ⟨rfl, rfl, (c5_mutators_amended c5StateKnown "gpt-5.2" .high true "T1" rfl rfl).1⟩

/-- Claim C5, counterexample to the claim as stated: with no thread id yet
known, setUltrathinkOverride leaves the cached handle untouched instead of
setting it to null. -/
theorem c5_ultrathink_no_invalidate_counterexample :
    (setUltrathinkOverride true c5StateNoId).thread = some c5ThreadNoId
    ∧ (setUltrathinkOverride true c5StateNoId).thread ≠ none := by
  decide

/-- Claim C6 (amended): a binding of the tool-parent map survives every
later event that does not yield a tool_start for that child id — the
tool-result path inserts only when the child is absent and never
overwrites — but the tool_start paths set the map unconditionally, so an
event that does yield a tool_start for the child can overwrite it (see the
counterexample). -/
theorem c6_tool_parents_amended (es : List JVal) (st : ChatState) (child p : String)
    (h : mapGet st.toolParents child = some p)
    (hall : ((chatLoop es st).1.all fun ev => !isToolStartId child ev) = true) :
    mapGet (chatLoop es st).2.toolParents child = some p := by
  induction es generalizing st with
  | nil => simpa [chatLoop] using h
  | cons e rest ih =>
    simp only [chatLoop, List.all_append] at hall ⊢
    have h1 := ((Bool.and_eq_true _ _).mp hall).1
    have h2 := ((Bool.and_eq_true _ _).mp hall).2
    exact ih (stepStreamed st e).2 (ppres_step st e child p h h1) h2

/-- An event that matches none of the streamed rules. -/
def c6NoOpEvent : JVal := .obj []

/-- Claim C6, witness: a binding recorded before the turn survives a
stream whose only event yields nothing. -/
theorem c6_tool_parents_witness :
    mapGet (chatInitState [("c1", "p0")]).toolParents "c1" = some "p0"
    ∧ ((chatLoop [c6NoOpEvent] (chatInitState [("c1", "p0")])).1.all
        fun ev => !isToolStartId "c1" ev) = true
    ∧ mapGet (chatLoop [c6NoOpEvent] (chatInitState [("c1", "p0")])).2.toolParents "c1"
        = some "p0" :=
  ⟨rfl, by decide,
    c6_tool_parents_amended [c6NoOpEvent] (chatInitState [("c1", "p0")]) "c1" "p0" rfl
      (by decide)⟩

/-- First command-execution item event of the C6 counterexample: child c1
with parent p1. -/
def c6Ev1 : JVal :=
  .obj [("type", .str "item.started"), ("parent_id", .str "p1"),
    ("item", .obj [("type", .str "command_execution"), ("id", .str "c1"),
      ("command", .str "ls")])]

/-- Second command-execution item event of the C6 counterexample: the same
child c1 now claims parent p2. -/
def c6Ev2 : JVal :=
  .obj [("type", .str "item.started"), ("parent_id", .str "p2"),
    ("item", .obj [("type", .str "command_execution"), ("id", .str "c1"),
      ("command", .str "ls")])]

/-- Claim C6, counterexample to the claim as stated: after the first event
the map sends c1 to p1, and the second event overwrites the binding to p2,
so a set binding is not never-overwritten. -/
theorem c6_tool_parents_overwrite_counterexample :
    mapGet (chatLoop [c6Ev1] (chatInitState [])).2.toolParents "c1" = some "p1"
    ∧ mapGet (chatLoop [c6Ev1, c6Ev2] (chatInitState [])).2.toolParents "c1" = some "p2" := by
  decide
